import Mathlib

/- Verification development for the garnish web server (src/main.rs, src/context.rs).
   Strings are modelled as lists of characters; Rust string operations used by the
   server (trim, trim_matches, str::replace with an empty replacement, ends_with,
   Path::strip_prefix on normalized slash-separated paths) are given executable
   models below.  External collaborators (the lexer/parser, the bytecode builder,
   the interpreter step function, the HTML/CSS deserializers and the filesystem)
   are passed in as explicit oracle values, exactly where the source calls them. -/

namespace GarnishWeb

abbrev Str := List Char

/- Rust char::is_whitespace restricted to the ASCII whitespace characters that can
   occur in a URI path or file path. -/
def isWS (c : Char) : Bool :=
  c == ' ' || c == '\t' || c == '\n' || c == '\r'

/- Rust str::trim: remove leading and trailing whitespace. -/
def trimStr (s : Str) : Str :=
  ((s.dropWhile isWS).reverse.dropWhile isWS).reverse

/- Rust str::trim_matches('/'): remove leading and trailing '/' characters. -/
def trimSlashes (s : Str) : Str :=
  ((s.dropWhile (· == '/')).reverse.dropWhile (· == '/')).reverse

/- Rust str::replace(pat, ""): scan left to right, remove each non-overlapping
   occurrence of pat, never rescanning the produced text.  Fuel-based so that the
   kernel can evaluate it; the wrapper supplies fuel equal to the input length,
   which is enough because every step consumes at least one character. -/
def removeAllAux (pat : Str) : Nat → Str → Str
  | 0, s => s
  | Nat.succ n, s =>
    if pat ≠ [] ∧ pat.isPrefixOf s then removeAllAux pat n (s.drop pat.length)
    else
      match s with
      | [] => []
      | c :: rest => c :: removeAllAux pat n rest

def removeAllStr (pat s : Str) : Str :=
  removeAllAux pat s.length s

/- std::path::Path::strip_prefix for normalized, '/'-separated paths with no
   trailing slash on the base: returns the relative remainder, or none when the
   base is not a component-wise prefix.  Its Display error message in Rust is
   "prefix not found". -/
def stripBasePath (base path : Str) : Option Str :=
  if path == base then some []
  else if (base ++ ['/']).isPrefixOf path then some (path.drop (base.length + 1))
  else none

/- enum FileType, src/main.rs lines 309-313. -/
inductive FileType
  | HTML
  | CSS
deriving DecidableEq, Repr

/- struct RouteInfo, src/main.rs lines 315-330. -/
structure RouteInfo where
  route : Str
  file_type : FileType
  execution_start : Nat
deriving DecidableEq, Repr

def garnishPat : Str := ".garnish".toList
def htmlPat : Str := ".html".toList
def cssPat : Str := ".css".toList

/- Route computation from src/main.rs lines 349-362:
   path.strip_prefix(base_path)
       .and_then(|s| Ok(s.to_string_lossy().replace(".garnish", "")))
       .and_then(|s| Ok(if s.ends_with(".html") { (s.replace(".html", ""), HTML) }
                        else if s.ends_with(".css") { (s.replace(".css", ""), CSS) }
                        else { (s, HTML) }))
       .or_else(|e| Err(e.to_string()))?
   Note that str::replace removes every occurrence of its pattern. -/
def routeKey (base path : Str) : Except Str (Str × FileType) :=
  match stripBasePath base path with
  | none => Except.error "prefix not found".toList
  | some s0 =>
    let s := removeAllStr garnishPat s0
    if htmlPat.isSuffixOf s then Except.ok (removeAllStr htmlPat s, FileType.HTML)
    else if cssPat.isSuffixOf s then Except.ok (removeAllStr cssPat s, FileType.CSS)
    else Except.ok (s, FileType.HTML)

/- Dispatcher key derivation, src/main.rs lines 213-221.
   page = request.uri().path().trim().trim_matches('/').trim() -/
def pageOf (path : Str) : Str :=
  trimStr (trimSlashes (trimStr path))

/- page_index = if page.is_empty() then "index" else [page, "index"].join("/") -/
def pageIndexOf (page : Str) : Str :=
  if page.isEmpty then "index".toList else page ++ "/index".toList

/- options = [page_method, page_index_method, page, page_index], with
   page_method = format!("{0}@{1}", method, page) (src/main.rs line 221). -/
def requestOptions (method path : Str) : List Str :=
  [method ++ '@' :: pageOf path,
   method ++ '@' :: pageIndexOf (pageOf path),
   pageOf path,
   pageIndexOf (pageOf path)]

abbrev RouteMap := List (Str × RouteInfo)

/- options.iter().find(|o| state.route_mapping.contains_key(*o)) (lines 228-230). -/
def selectedOption (routes : RouteMap) (method path : Str) : Option Str :=
  (requestOptions method path).find? (fun o => (List.lookup o routes).isSome)

/- ...and_then(|s| state.route_mapping.get(s)) (line 231). -/
def selectRoute (routes : RouteMap) (method path : Str) : Option RouteInfo :=
  (selectedOption routes method path).bind (fun o => List.lookup o routes)

structure Response where
  status : Nat
  body : Str
  content_type : Option Str
deriving DecidableEq, Repr

/- Outcome of the request-side fetch/execute loop (src/main.rs lines 255-269):
   an execution error returns early with 500, otherwise the loop runs to End. -/
inductive LoopOutcome
  | failed
  | finished
deriving DecidableEq, Repr

/- deserialize_current_value (src/main.rs lines 292-307): on a deserialization
   error, log and return String::new(); on success, the textualized value.
   current_value_to_string (lines 285-290) dispatches on FileType; the external
   serde deserializers are the oracle argument. -/
def current_value_to_string (deser : FileType → Except Str Str) (ft : FileType) : Str :=
  match deser ft with
  | Except.error _ => []
  | Except.ok n => n

/- handler, src/main.rs lines 206-283.  setCursor models
   set_instruction_cursor(info.execution_start) (some e = Err(e)); execLoop models
   the fetch/execute loop over the cloned runtime; deser models the serde
   deserializers used by current_value_to_string. -/
def handler (routes : RouteMap) (method path : Str)
    (setCursor : Nat → Option Str) (execLoop : LoopOutcome)
    (deser : FileType → Except Str Str) : Response :=
  match selectRoute routes method path with
  | none => ⟨404, [], none⟩
  | some info =>
    match setCursor info.execution_start with
    | some _ => ⟨500, [], none⟩
    | none =>
      match execLoop with
      | LoopOutcome.failed => ⟨500, [], none⟩
      | LoopOutcome.finished =>
        ⟨200, current_value_to_string deser info.file_type, some "text/html".toList⟩

/- Outcome of one execute_current_instruction step, as seen by the annotation
   build loop at src/main.rs lines 582-593: an Err, or Ok with state Running or
   state End. -/
inductive StepOutcome
  | errS
  | runningS
  | endS
deriving DecidableEq, Repr

/- The annotation fetch/execute loop, src/main.rs lines 582-593.  step is the
   trace of outcomes of execute_current_instruction at each loop iteration; the
   loop logs and `continue`s on Err, keeps going on Running, and breaks on End.
   The result is the iteration index at which the loop broke, or none when the
   (artificial) fuel ran out before any End was observed. -/
def annotationLoop (step : Nat → StepOutcome) : Nat → Nat → Option Nat
  | 0, _ => none
  | Nat.succ fuel, i =>
    match step i with
    | StepOutcome.errS => annotationLoop step fuel (i + 1)
    | StepOutcome.runningS => annotationLoop step fuel (i + 1)
    | StepOutcome.endS => some i

/- Interpreter-data operations used by WebContext::resolve (src/context.rs lines
   33-51).  They belong to the external SimpleRuntimeData type, so they are an
   explicit bundle of oracles: get_symbols is the data's symbol table (id to
   string), add_expression allocates an expression value on the heap returning
   its address, push_register pushes an address onto the register stack; the two
   latter may fail with the interpreter's error type E. -/
structure DataOps (D E : Type) where
  get_symbols : D → List (Nat × Str)
  add_expression : D → Nat → Except E (D × Nat)
  push_register : D → Nat → Except E D

/- struct WebContext, src/context.rs lines 6-10. -/
structure WebContextM where
  expression_map : List (Str × Nat)
  build_metadata : List Str
deriving DecidableEq, Repr

/- WebContext::resolve, src/context.rs lines 33-51:
   match data.get_symbols().get(&symbol) with
     None => Ok(false)
     Some(s) => match self.expression_map.get(s) with
       None => Ok(false)
       Some(i) => data.add_expression(*i).and_then(|i| data.push_register(i))?; Ok(true).
   The returned triple models (return value, self after the call, data after the
   call); the source never writes to self. -/
def WebContextM.resolve {D E : Type} (ops : DataOps D E) (ctx : WebContextM)
    (symbol : Nat) (data : D) : Except E (Bool × WebContextM × D) :=
  match List.lookup symbol (ops.get_symbols data) with
  | none => Except.ok (false, ctx, data)
  | some s =>
    match List.lookup s ctx.expression_map with
    | none => Except.ok (false, ctx, data)
    | some i =>
      match ops.add_expression data i with
      | Except.error e => Except.error e
      | Except.ok (d1, addr) =>
        match ops.push_register d1 addr with
        | Except.error e => Except.error e
        | Except.ok d2 => Except.ok (true, ctx, d2)

/- Values stored in the SimpleRuntimeData heap, restricted to the constructors
   get_name_expression_annotation_parameters (src/main.rs lines 609-715)
   distinguishes; everything else is otherV. -/
inductive GarnishValue
  | symbolV (id : Nat)
  | charListV (s : Str)
  | expressionV (idx : Nat)
  | listV (items : List Nat)
  | otherV
deriving DecidableEq, Repr

/- The ExpressionDataType tags the source matches on. -/
inductive ExpressionDataType
  | Symbol
  | CharList
  | Expression
  | List
  | Other
deriving DecidableEq, Repr

def typeOf : GarnishValue → ExpressionDataType
  | GarnishValue.symbolV _ => ExpressionDataType.Symbol
  | GarnishValue.charListV _ => ExpressionDataType.CharList
  | GarnishValue.expressionV _ => ExpressionDataType.Expression
  | GarnishValue.listV _ => ExpressionDataType.List
  | GarnishValue.otherV => ExpressionDataType.Other

/- The slice of SimpleRuntimeData the decoder reads: the value heap and the
   data symbol table returned by get_symbols(). -/
structure SimpleData where
  heap : List GarnishValue
  symbol_table : List (Nat × Str)
deriving DecidableEq, Repr

/- runtime.get_data().get_data_type(ref): Err on an invalid address. -/
def get_data_type (d : SimpleData) (ref : Nat) : Except Unit ExpressionDataType :=
  match d.heap[ref]? with
  | none => Except.error ()
  | some v => Except.ok (typeOf v)

/- runtime.get_data().get_list_item(ref, n): Err when ref is not a List or n is
   out of range. -/
def get_list_item (d : SimpleData) (ref n : Nat) : Except Unit Nat :=
  match d.heap[ref]? with
  | some (GarnishValue.listV items) =>
    match items[n]? with
    | some a => Except.ok a
    | none => Except.error ()
  | _ => Except.error ()

/- runtime.get_data().get_symbol(ref). -/
def get_symbol (d : SimpleData) (ref : Nat) : Except Unit Nat :=
  match d.heap[ref]? with
  | some (GarnishValue.symbolV id) => Except.ok id
  | _ => Except.error ()

/- runtime.get_data().get_expression(ref). -/
def get_expression (d : SimpleData) (ref : Nat) : Except Unit Nat :=
  match d.heap[ref]? with
  | some (GarnishValue.expressionV i) => Except.ok i
  | _ => Except.error ()

/- SimpleData::as_char_list on a heap slot. -/
def as_char_list : GarnishValue → Except Unit Str
  | GarnishValue.charListV s => Except.ok s
  | _ => Except.error ()

/- Decoding of list item 0, src/main.rs lines 621-671: Symbol goes through
   get_symbol and the data symbol table; CharList goes through get_data().get
   and as_char_list; any other type is an error. -/
def decodeItem0 (d : SimpleData) (value_ref : Nat) : Except Unit Str :=
  match get_list_item d value_ref 0 with
  | Except.error _ => Except.error ()
  | Except.ok v =>
    match get_data_type d v with
    | Except.error _ => Except.error ()
    | Except.ok ExpressionDataType.Symbol =>
      match get_symbol d v with
      | Except.error _ => Except.error ()
      | Except.ok s =>
        match List.lookup s d.symbol_table with
        | none => Except.error ()
        | some name => Except.ok name
    | Except.ok ExpressionDataType.CharList =>
      match d.heap[v]? with
      | none => Except.error ()
      | some gv => as_char_list gv
    | Except.ok _ => Except.error ()

/- Decoding of list item 1, src/main.rs lines 673-702: the item must have type
   Expression and decodes to its stored jump-table index. -/
def decodeItem1 (d : SimpleData) (value_ref : Nat) : Except Unit Nat :=
  match get_list_item d value_ref 1 with
  | Except.error _ => Except.error ()
  | Except.ok v =>
    match get_data_type d v with
    | Except.error _ => Except.error ()
    | Except.ok ExpressionDataType.Expression => get_expression d v
    | Except.ok _ => Except.error ()

/- get_name_expression_annotation_parameters, src/main.rs lines 609-715.  The
   terminal value must be a List; item 0 is decoded first, then item 1. -/
def get_name_expression_annotation_parameters (d : SimpleData) (value_ref : Nat) :
    Except Unit (Str × Nat) :=
  match get_data_type d value_ref with
  | Except.error _ => Except.error ()
  | Except.ok ExpressionDataType.List =>
    match decodeItem0 d value_ref with
    | Except.error _ => Except.error ()
    | Except.ok name =>
      match decodeItem1 d value_ref with
      | Except.error _ => Except.error ()
      | Except.ok idx => Except.ok (name, idx)
  | Except.ok _ => Except.error ()

/- One @Method token block as handle_method_annotations sees it (src/main.rs
   lines 502-540).  build is the outcome of build_and_get_parameters: none for
   Err(_) (the block is skipped with `continue`, line 511), some (name,
   jump_index) for Ok.  jumpPoint is runtime.get_data().get_jump_point(jump_index)
   at line 516, consulted only when build succeeded. -/
structure MethodBlockM where
  build : Option (Str × Nat)
  jumpPoint : Option Nat
deriving DecidableEq, Repr

/- One @Def token block as handle_def_annotations sees it (src/main.rs lines
   458-486): build is the outcome of build_and_get_parameters; on Ok (name,
   start) the pair is inserted into the context's expression map (line 485). -/
structure DefBlockM where
  build : Option (Str × Nat)
deriving DecidableEq, Repr

/- Outcome of the root-block pipeline of create_runtime, src/main.rs lines
   400-426: parse(&root_tokens)? (fatal on error), the is_empty check (skip),
   build_with_data? (fatal on error), and get_jump_point(index) where index is
   the jump-table length recorded before the build. -/
inductive RootOutcome
  | parseFail (e : Str)
  | emptyNodes
  | buildFail (e : Str)
  | builtNoJump
  | builtOk (index : Nat) (execStart : Nat)
deriving DecidableEq, Repr

/- One input file with the outcomes of its external calls: readErr models
   fs::read_to_string(&path)? (line 366), collectErr models
   collector.collect_tokens_from_input(&file_text)? (line 373), and the block
   lists are the partition of the collected blocks (lines 375-381). -/
structure FileM where
  path : Str
  readErr : Option Str
  collectErr : Option Str
  methodBlocks : List MethodBlockM
  defBlocks : List DefBlockM
  root : RootOutcome
deriving DecidableEq, Repr

/- The accumulating compilation state: route_to_expression (src/main.rs line
   347) and the context's expression_map.  Insertion is modelled by consing;
   List.lookup takes the most recent binding, matching HashMap::insert's
   last-writer-wins. -/
structure CompState where
  routes : RouteMap
  exprMap : List (Str × Nat)
deriving DecidableEq, Repr

/- handle_method_annotations, src/main.rs lines 491-543.  A failed
   build_and_get_parameters skips the block (line 511); a missing jump point for
   the decoded jump_index returns Err("Expression value not found in jump
   table") out of the whole function (lines 516-524); otherwise the route map
   gains (name@route, RouteInfo(name@route, file_type, start)) and the
   expression map gains (name@route, jump_index) (lines 536-539). -/
def processMethodBlocks (route : Str) (ft : FileType) :
    List MethodBlockM → CompState → Except Str CompState
  | [], st => Except.ok st
  | b :: rest, st =>
    match b.build with
    | none => processMethodBlocks route ft rest st
    | some (name, jidx) =>
      match b.jumpPoint with
      | none => Except.error "Expression value not found in jump table".toList
      | some start =>
        processMethodBlocks route ft rest
          ⟨(name ++ '@' :: route, ⟨name ++ '@' :: route, ft, start⟩) :: st.routes,
           (name ++ '@' :: route, jidx) :: st.exprMap⟩

/- handle_def_annotations, src/main.rs lines 450-489: failed builds are logged
   and skipped; successful ones insert (name, start) into the expression map.
   The function never returns an error. -/
def processDefBlocks : List DefBlockM → CompState → CompState
  | [], st => st
  | b :: rest, st =>
    match b.build with
    | none => processDefBlocks rest st
    | some (name, start) => processDefBlocks rest ⟨st.routes, (name, start) :: st.exprMap⟩

/- The per-file body of create_runtime's loop, src/main.rs lines 349-445, in
   source order: route computation (`?` on a strip_prefix failure), file read
   (`?`), token collection (`?`), method blocks (`?`), def blocks, then the root
   pipeline; an empty root parse skips the rest of the iteration (line 414),
   and a successful root build registers (route, RouteInfo(route, file_type,
   execution_start)) and (route, index). -/
def processFile (base : Str) (f : FileM) (st : CompState) : Except Str CompState :=
  match routeKey base f.path with
  | Except.error e => Except.error e
  | Except.ok (route, ft) =>
    match f.readErr with
    | some e => Except.error e
    | none =>
      match f.collectErr with
      | some e => Except.error e
      | none =>
        match processMethodBlocks route ft f.methodBlocks st with
        | Except.error e => Except.error e
        | Except.ok st1 =>
          let st2 := processDefBlocks f.defBlocks st1
          match f.root with
          | RootOutcome.parseFail e => Except.error e
          | RootOutcome.emptyNodes => Except.ok st2
          | RootOutcome.buildFail e => Except.error e
          | RootOutcome.builtNoJump =>
            Except.error ("No jump point found after building ".toList ++ f.path)
          | RootOutcome.builtOk index start =>
            Except.ok ⟨(route, ⟨route, ft, start⟩) :: st2.routes,
                       (route, index) :: st2.exprMap⟩

/- create_runtime, src/main.rs lines 332-448: fold processFile over the input
   files; any error aborts the whole compilation (and hence startup). -/
def create_runtime (base : Str) : List FileM → CompState → Except Str CompState
  | [], st => Except.ok st
  | f :: rest, st =>
    match processFile base f st with
    | Except.error e => Except.error e
    | Except.ok st2 => create_runtime base rest st2

/- Well-formedness of SimpleRuntimeData, maintained by the runtime: every
   symbol value stored on the heap has its id registered in the data's symbol
   table (SimpleRuntimeData interns the string when the symbol is created). -/
def valOk (d : SimpleData) : GarnishValue → Bool
  | GarnishValue.symbolV id => (List.lookup id d.symbol_table).isSome
  | _ => true

def wfData (d : SimpleData) : Prop :=
  ∀ gv ∈ d.heap, valOk d gv = true

instance (d : SimpleData) : Decidable (wfData d) :=
  inferInstanceAs (Decidable (∀ gv ∈ d.heap, valOk d gv = true))

/- The route-map invariant of interest: each entry's RouteInfo.route equals its
   key. -/
def routesInvariant (routes : RouteMap) : Prop :=
  ∀ p ∈ routes, p.2.route = p.1

instance (routes : RouteMap) : Decidable (routesInvariant routes) :=
  inferInstanceAs (Decidable (∀ p ∈ routes, p.2.route = p.1))

/-- C1: the claim states that a deserialization failure yields HTTP 500 with an
empty body.  The code disagrees: deserialize_current_value (src/main.rs lines
292-307) swallows the error and returns an empty string, and the handler wraps
it in the HTTP 200 branch (lines 273-280).  This counterexample runs the
handler on a registered route whose execution finishes but whose
deserialization fails, and the resulting status is 200, not 500. -/
theorem handler_deserialize_failure_status200_cex :
    (handler [("a".toList, ⟨"a".toList, FileType.HTML, 0⟩)] "GET".toList "/a".toList
      (fun _ => none) LoopOutcome.finished (fun _ => Except.error "bad".toList)).status = 200
    ∧ (200 : Nat) ≠ 500 :=
  ⟨rfl, by decide⟩

/-- C1 (amended): for every request that matches a route, if deserializing the
terminal value by the route's FileType fails, the dispatcher returns HTTP 200
with an empty body (the deserializer swallows the failure and yields an empty
string); and every non-200 response has an empty body. -/
theorem handler_deserialize_failure_ok200_and_non200_empty :
    (∀ (routes : RouteMap) (method path : Str) (setCursor : Nat → Option Str)
       (deser : FileType → Except Str Str) (info : RouteInfo) (e : Str),
       selectRoute routes method path = some info →
       setCursor info.execution_start = none →
       deser info.file_type = Except.error e →
       handler routes method path setCursor LoopOutcome.finished deser =
         ⟨200, [], some "text/html".toList⟩)
    ∧ (∀ (routes : RouteMap) (method path : Str) (setCursor : Nat → Option Str)
         (execLoop : LoopOutcome) (deser : FileType → Except Str Str),
       (handler routes method path setCursor execLoop deser).status ≠ 200 →
       (handler routes method path setCursor execLoop deser).body = []) := by
  constructor
  · intro routes method path setCursor deser info e hsel hcur hde
    simp [handler, hsel, hcur, current_value_to_string, hde]
  · intro routes method path setCursor execLoop deser h
    cases hsel : selectRoute routes method path with
    | none => simp [handler, hsel]
    | some info =>
      cases hcur : setCursor info.execution_start with
      | some err => simp [handler, hsel, hcur]
      | none =>
        cases execLoop with
        | failed => simp [handler, hsel, hcur]
        | finished => exact absurd (by simp [handler, hsel, hcur]) h

/-- C1 witness: a concrete request on a CSS route whose deserialization fails
produces exactly the 200 response with empty body. -/
theorem handler_deserialize_failure_ok200_witness :
    handler [("b".toList, ⟨"b".toList, FileType.CSS, 3⟩)] "POST".toList "/b".toList
      (fun _ => none) LoopOutcome.finished (fun _ => Except.error "e".toList) =
      ⟨200, [], some "text/html".toList⟩ :=
  handler_deserialize_failure_ok200_and_non200_empty.1
    [("b".toList, ⟨"b".toList, FileType.CSS, 3⟩)] "POST".toList "/b".toList
    (fun _ => none) (fun _ => Except.error "e".toList)
    ⟨"b".toList, FileType.CSS, 3⟩ "e".toList rfl rfl rfl

/-- C2: the claim states that occurrences of `.garnish`, `.html`, `.css` that
are not the trailing suffix are preserved in the route string.  The code uses
str::replace (src/main.rs lines 352-357), which removes every occurrence:
RouteKey(/site/a.html.b.html.garnish, base=/site) yields route "a.b", not the
"a.html.b" the claim predicts. -/
theorem routeKey_preserves_interior_cex :
    routeKey "/site".toList "/site/a.html.b.html.garnish".toList =
      Except.ok ("a.b".toList, FileType.HTML)
    ∧ "a.b".toList ≠ "a.html.b".toList :=
  ⟨rfl, by decide⟩

/-- C2 (amended): RouteKey strips the basePath prefix (failing exactly when
basePath is not a prefix), removes every left-to-right non-overlapping
occurrence of `.garnish` (not only a trailing one); if the residual ends with
`.html` it removes every occurrence of `.html` and yields FileType Html; if it
ends with `.css` it removes every occurrence of `.css` and yields Css;
otherwise the residual is unchanged and the FileType is Html.  The three listed
examples hold: RouteKey(/site/a.css.garnish, base=/site) = ("a", Css),
RouteKey(/site/a.html.garnish, base=/site) = ("a", Html),
RouteKey(/site/a.garnish, base=/site) = ("a", Html). -/
theorem routeKey_removes_all_occurrences :
    (∀ base path s0, stripBasePath base path = some s0 →
      routeKey base path = Except.ok (
        if htmlPat.isSuffixOf (removeAllStr garnishPat s0) then
          (removeAllStr htmlPat (removeAllStr garnishPat s0), FileType.HTML)
        else if cssPat.isSuffixOf (removeAllStr garnishPat s0) then
          (removeAllStr cssPat (removeAllStr garnishPat s0), FileType.CSS)
        else (removeAllStr garnishPat s0, FileType.HTML)))
    ∧ (∀ base path, stripBasePath base path = none ↔
        routeKey base path = Except.error "prefix not found".toList)
    ∧ routeKey "/site".toList "/site/a.css.garnish".toList =
        Except.ok ("a".toList, FileType.CSS)
    ∧ routeKey "/site".toList "/site/a.html.garnish".toList =
        Except.ok ("a".toList, FileType.HTML)
    ∧ routeKey "/site".toList "/site/a.garnish".toList =
        Except.ok ("a".toList, FileType.HTML) := by
  refine ⟨?_, ?_, rfl, rfl, rfl⟩
  · intro base path s0 h
    simp only [routeKey, h]
    split
    · rename_i hc
      simp [hc]
    · rename_i hc
      split
      · rename_i hc2
        simp [hc, hc2]
      · rename_i hc2
        simp [hc, hc2]
  · intro base path
    constructor
    · intro h
      simp [routeKey, h]
    · intro h
      cases hs : stripBasePath base path with
      | none => rfl
      | some s0 =>
        exfalso
        simp only [routeKey, hs] at h
        split at h
        · exact Except.noConfusion h
        · split at h
          · exact Except.noConfusion h
          · exact Except.noConfusion h

/-- C2 witness: the general clause applied at a concrete prefixed path. -/
theorem routeKey_removes_all_occurrences_witness :
    routeKey "/x".toList "/x/p.css.garnish".toList = Except.ok ("p".toList, FileType.CSS) := by
  have h := routeKey_removes_all_occurrences.1 "/x".toList "/x/p.css.garnish".toList
    "p.css.garnish".toList rfl
  exact h.trans rfl

/-- C3: the dispatcher derives exactly the four candidate keys
[METHOD@page, METHOD@pageIndex, page, pageIndex] (src/main.rs lines 213-221),
where pageIndex is "index" when page is empty and page ++ "/index" otherwise,
and selects the first candidate present in the route map (lines 228-231); in
particular when METHOD@page is registered (and page as well), METHOD@page is
selected. -/
theorem dispatcher_candidate_order_and_precedence :
    (∀ method path : Str, requestOptions method path =
      [method ++ '@' :: pageOf path, method ++ '@' :: pageIndexOf (pageOf path),
       pageOf path, pageIndexOf (pageOf path)])
    ∧ (pageIndexOf [] = "index".toList
       ∧ ∀ page : Str, page ≠ [] → pageIndexOf page = page ++ "/index".toList)
    ∧ (∀ (routes : RouteMap) (method path : Str) (i : RouteInfo),
        List.lookup (method ++ '@' :: pageOf path) routes = some i →
        (List.lookup (pageOf path) routes).isSome = true →
        selectedOption routes method path = some (method ++ '@' :: pageOf path)
        ∧ selectRoute routes method path = some i) := by
  refine ⟨fun method path => rfl, ⟨rfl, ?_⟩, ?_⟩
  · intro page hp
    simp [pageIndexOf, hp]
  · intro routes method path i h1 h2
    have hfind : selectedOption routes method path =
        some (method ++ '@' :: pageOf path) := by
      unfold selectedOption requestOptions
      rw [List.find?_cons_of_pos]
      simp [h1]
    refine ⟨hfind, ?_⟩
    unfold selectRoute
    rw [hfind]
    simp [h1]

/-- C3 witness: with both "GET@a" and "a" registered, a GET request for "/a/"
selects the method-qualified key and its RouteInfo. -/
theorem dispatcher_precedence_witness :
    selectedOption
        [("GET@a".toList, ⟨"GET@a".toList, FileType.HTML, 1⟩),
         ("a".toList, ⟨"a".toList, FileType.HTML, 2⟩)] "GET".toList "/a/".toList =
      some ("GET".toList ++ '@' :: pageOf "/a/".toList)
    ∧ selectRoute
        [("GET@a".toList, ⟨"GET@a".toList, FileType.HTML, 1⟩),
         ("a".toList, ⟨"a".toList, FileType.HTML, 2⟩)] "GET".toList "/a/".toList =
      some ⟨"GET@a".toList, FileType.HTML, 1⟩ :=
  dispatcher_candidate_order_and_precedence.2.2
    [("GET@a".toList, ⟨"GET@a".toList, FileType.HTML, 1⟩),
     ("a".toList, ⟨"a".toList, FileType.HTML, 2⟩)] "GET".toList "/a/".toList
    ⟨"GET@a".toList, FileType.HTML, 1⟩ rfl rfl

/-- C4: the claim states that a file whose path lacks the basePath prefix is
skipped with the remaining files still compiled and startup succeeding.  The
code disagrees: the strip_prefix failure is propagated with `?` out of
create_runtime (src/main.rs line 362).  Concretely, compiling a bad-path file
followed by a well-formed one makes the whole compilation return the path
error, so the second file is never registered and startup fails. -/
theorem path_error_skips_file_cex :
    create_runtime "/site".toList
      [⟨"/other/a.garnish".toList, none, none, [], [], RootOutcome.builtOk 0 5⟩,
       ⟨"/site/b.garnish".toList, none, none, [], [], RootOutcome.builtOk 1 9⟩]
      ⟨[], []⟩ = Except.error "prefix not found".toList :=
  rfl

/-- C4 (amended): for every input file whose path does not have basePath as a
prefix, the path error aborts the entire compilation: create_runtime returns
the error immediately, no later file is compiled, and startup fails. -/
theorem create_runtime_path_error_fatal :
    ∀ (base : Str) (f : FileM) (rest : List FileM) (st : CompState),
      stripBasePath base f.path = none →
      create_runtime base (f :: rest) st = Except.error "prefix not found".toList := by
  intro base f rest st h
  simp [create_runtime, processFile, routeKey, h]

/-- C4 witness: the amended statement applied to a concrete bad-path file
followed by a good file. -/
theorem create_runtime_path_error_fatal_witness :
    create_runtime "/site".toList
      [⟨"/elsewhere/c.garnish".toList, none, none, [], [], RootOutcome.emptyNodes⟩,
       ⟨"/site/d.garnish".toList, none, none, [], [], RootOutcome.builtOk 0 2⟩]
      ⟨[], []⟩ = Except.error "prefix not found".toList :=
  create_runtime_path_error_fatal "/site".toList
    ⟨"/elsewhere/c.garnish".toList, none, none, [], [], RootOutcome.emptyNodes⟩
    [⟨"/site/d.garnish".toList, none, none, [], [], RootOutcome.builtOk 0 2⟩]
    ⟨[], []⟩ rfl

/-- C5: during annotation evaluation (src/main.rs lines 582-593), a per-step
execution error never terminates the fetch/execute loop: on an error the next
iteration proceeds exactly as if the step had been Running, and whenever the
loop exits at iteration j, the step outcome there is End and no earlier
iteration produced End. -/
theorem annotationLoop_error_continues_end_exits :
    (∀ (step : Nat → StepOutcome) (fuel i : Nat), step i = StepOutcome.errS →
      annotationLoop step (fuel + 1) i = annotationLoop step fuel (i + 1))
    ∧ (∀ (step : Nat → StepOutcome) (fuel i j : Nat),
        annotationLoop step fuel i = some j →
        step j = StepOutcome.endS ∧ i ≤ j
        ∧ ∀ k, i ≤ k → k < j → step k ≠ StepOutcome.endS) := by
  constructor
  · intro step fuel i h
    simp [annotationLoop, h]
  · intro step fuel
    induction fuel with
    | zero =>
      intro i j h
      simp [annotationLoop] at h
    | succ n ih =>
      intro i j h
      cases hs : step i with
      | errS =>
        have h2 : annotationLoop step n (i + 1) = some j := by
          simpa [annotationLoop, hs] using h
        obtain ⟨hend, hle, hnone⟩ := ih (i + 1) j h2
        refine ⟨hend, by omega, ?_⟩
        intro k hk1 hk2
        rcases Nat.eq_or_lt_of_le hk1 with heq | hlt
        · rw [← heq, hs]
          intro hc
          exact StepOutcome.noConfusion hc
        · exact hnone k hlt hk2
      | runningS =>
        have h2 : annotationLoop step n (i + 1) = some j := by
          simpa [annotationLoop, hs] using h
        obtain ⟨hend, hle, hnone⟩ := ih (i + 1) j h2
        refine ⟨hend, by omega, ?_⟩
        intro k hk1 hk2
        rcases Nat.eq_or_lt_of_le hk1 with heq | hlt
        · rw [← heq, hs]
          intro hc
          exact StepOutcome.noConfusion hc
        · exact hnone k hlt hk2
      | endS =>
        have h2 : i = j := by
          simpa [annotationLoop, hs] using h
        subst h2
        exact ⟨hs, Nat.le_refl i, fun k hk1 hk2 => absurd (Nat.lt_of_le_of_lt hk1 hk2)
          (Nat.lt_irrefl i)⟩

/-- C5 witness: on a trace erring at iterations 0 and 1 and ending at 2, the
loop exits at 2 and the outcome there is End. -/
theorem annotationLoop_witness :
    (fun n => if n < 2 then StepOutcome.errS else StepOutcome.endS) 2 = StepOutcome.endS :=
  (annotationLoop_error_continues_end_exits.2
    (fun n => if n < 2 then StepOutcome.errS else StepOutcome.endS) 5 0 2 rfl).1

/-- C6: WebContext::resolve (src/context.rs lines 33-51) looks the symbol id up
in the interpreter's symbol table and the resulting string up in
expression_map; if both lookups succeed it allocates an expression value for
the found jump-table index, pushes the returned address on the register stack,
and returns true; if either lookup misses it returns false with the
interpreter data untouched; in every successful case the context (and hence
expression_map) is unchanged; and the only error it can return is one
forwarded from the add_expression/push_register chain. -/
theorem resolve_lookup_behavior :
    ∀ (D E : Type) (ops : DataOps D E) (ctx : WebContextM) (symbol : Nat) (data : D),
      (List.lookup symbol (ops.get_symbols data) = none →
        WebContextM.resolve ops ctx symbol data = Except.ok (false, ctx, data))
      ∧ (∀ s, List.lookup symbol (ops.get_symbols data) = some s →
          List.lookup s ctx.expression_map = none →
          WebContextM.resolve ops ctx symbol data = Except.ok (false, ctx, data))
      ∧ (∀ s i d1 addr d2, List.lookup symbol (ops.get_symbols data) = some s →
          List.lookup s ctx.expression_map = some i →
          ops.add_expression data i = Except.ok (d1, addr) →
          ops.push_register d1 addr = Except.ok d2 →
          WebContextM.resolve ops ctx symbol data = Except.ok (true, ctx, d2))
      ∧ (∀ b ctx2 d2, WebContextM.resolve ops ctx symbol data = Except.ok (b, ctx2, d2) →
          ctx2 = ctx)
      ∧ (∀ e, WebContextM.resolve ops ctx symbol data = Except.error e →
          ∃ s i, List.lookup symbol (ops.get_symbols data) = some s
            ∧ List.lookup s ctx.expression_map = some i
            ∧ (ops.add_expression data i = Except.error e
               ∨ ∃ d1 addr, ops.add_expression data i = Except.ok (d1, addr)
                   ∧ ops.push_register d1 addr = Except.error e)) := by
  intro D E ops ctx symbol data
  refine ⟨?_, ?_, ?_, ?_, ?_⟩
  · intro h
    simp [WebContextM.resolve, h]
  · intro s h1 h2
    simp [WebContextM.resolve, h1, h2]
  · intro s i d1 addr d2 h1 h2 h3 h4
    simp [WebContextM.resolve, h1, h2, h3, h4]
  · intro b ctx2 d2 h
    unfold WebContextM.resolve at h
    cases h1 : List.lookup symbol (ops.get_symbols data) with
    | none =>
      simp [h1] at h
      exact h.2.1.symm
    | some s =>
      cases h2 : List.lookup s ctx.expression_map with
      | none =>
        simp [h1, h2] at h
        exact h.2.1.symm
      | some i =>
        cases h3 : ops.add_expression data i with
        | error e =>
          simp [h1, h2, h3] at h
        | ok p =>
          obtain ⟨d1, addr⟩ := p
          cases h4 : ops.push_register d1 addr with
          | error e =>
            simp [h1, h2, h3, h4] at h
          | ok d2b =>
            simp [h1, h2, h3, h4] at h
            exact h.2.1.symm
  · intro e h
    unfold WebContextM.resolve at h
    cases h1 : List.lookup symbol (ops.get_symbols data) with
    | none =>
      simp [h1] at h
    | some s =>
      cases h2 : List.lookup s ctx.expression_map with
      | none =>
        simp [h1, h2] at h
      | some i =>
        cases h3 : ops.add_expression data i with
        | error e0 =>
          simp [h1, h2, h3] at h
          exact ⟨s, i, rfl, h2, Or.inl (by rw [h3, h])⟩
        | ok p =>
          obtain ⟨d1, addr⟩ := p
          cases h4 : ops.push_register d1 addr with
          | error e0 =>
            simp [h1, h2, h3, h4] at h
            exact ⟨s, i, rfl, h2, Or.inr ⟨d1, addr, h3, by rw [h4, h]⟩⟩
          | ok d2b =>
            simp [h1, h2, h3, h4] at h

/-- C6 witness: a concrete instantiation where both lookups hit and the heap
allocation and register push succeed, returning true with the expression map
unchanged. -/
theorem resolve_lookup_behavior_witness :
    WebContextM.resolve
      (⟨fun _ => [(7, "greet".toList)], fun d i => Except.ok (d + i, d),
        fun d a => Except.ok (d + a)⟩ : DataOps Nat Nat)
      ⟨[("greet".toList, 4)], []⟩ 7 10 =
      Except.ok (true, ⟨[("greet".toList, 4)], []⟩, 24) :=
  (resolve_lookup_behavior Nat Nat
    (⟨fun _ => [(7, "greet".toList)], fun d i => Except.ok (d + i, d),
      fun d a => Except.ok (d + a)⟩ : DataOps Nat Nat)
    ⟨[("greet".toList, 4)], []⟩ 7 10).2.2.1 "greet".toList 4 14 10 24 rfl rfl rfl rfl

lemma get_list_item_ok_iff (d : SimpleData) (ref n a : Nat) :
    get_list_item d ref n = Except.ok a ↔
      ∃ items, d.heap[ref]? = some (GarnishValue.listV items) ∧ items[n]? = some a := by
  unfold get_list_item
  cases h : d.heap[ref]? with
  | none => simp
  | some gv =>
    cases gv with
    | listV items =>
      cases h2 : items[n]? with
      | none => simp [h2]
      | some b => simp [h2]
    | symbolV id => simp
    | charListV cs => simp
    | expressionV i => simp
    | otherV => simp

lemma decodeItem0_sym (d : SimpleData) (ref v id : Nat) (name : Str)
    (h1 : get_list_item d ref 0 = Except.ok v)
    (h2 : d.heap[v]? = some (GarnishValue.symbolV id))
    (h3 : List.lookup id d.symbol_table = some name) :
    decodeItem0 d ref = Except.ok name := by
  simp [decodeItem0, h1, get_data_type, h2, typeOf, get_symbol, h3]

lemma decodeItem0_char (d : SimpleData) (ref v : Nat) (cs : Str)
    (h1 : get_list_item d ref 0 = Except.ok v)
    (h2 : d.heap[v]? = some (GarnishValue.charListV cs)) :
    decodeItem0 d ref = Except.ok cs := by
  simp [decodeItem0, h1, get_data_type, h2, typeOf, as_char_list]

lemma decodeItem0_ok_shape (d : SimpleData) (ref : Nat) (name : Str)
    (h : decodeItem0 d ref = Except.ok name) :
    ∃ v, get_list_item d ref 0 = Except.ok v
      ∧ ((∃ id, d.heap[v]? = some (GarnishValue.symbolV id)
            ∧ List.lookup id d.symbol_table = some name)
         ∨ d.heap[v]? = some (GarnishValue.charListV name)) := by
  unfold decodeItem0 at h
  cases h1 : get_list_item d ref 0 with
  | error e => simp [h1] at h
  | ok v =>
    rw [h1] at h
    cases h2 : d.heap[v]? with
    | none => simp [get_data_type, h2] at h
    | some gv =>
      cases gv with
      | symbolV id =>
        simp only [get_data_type, h2, typeOf, get_symbol] at h
        cases h3 : List.lookup id d.symbol_table with
        | none => simp [h3] at h
        | some nm =>
          simp only [h3] at h
          obtain rfl : nm = name := Except.ok.inj h
          exact ⟨v, rfl, Or.inl ⟨id, h2, h3⟩⟩
      | charListV cs =>
        simp only [get_data_type, h2, typeOf, as_char_list] at h
        obtain rfl : cs = name := Except.ok.inj h
        exact ⟨v, rfl, Or.inr h2⟩
      | expressionV i => simp [get_data_type, h2, typeOf] at h
      | listV items => simp [get_data_type, h2, typeOf] at h
      | otherV => simp [get_data_type, h2, typeOf] at h

lemma decodeItem1_exp (d : SimpleData) (ref v idx : Nat)
    (h1 : get_list_item d ref 1 = Except.ok v)
    (h2 : d.heap[v]? = some (GarnishValue.expressionV idx)) :
    decodeItem1 d ref = Except.ok idx := by
  simp [decodeItem1, h1, get_data_type, h2, typeOf, get_expression]

lemma decodeItem1_ok_shape (d : SimpleData) (ref idx : Nat)
    (h : decodeItem1 d ref = Except.ok idx) :
    ∃ v, get_list_item d ref 1 = Except.ok v
      ∧ d.heap[v]? = some (GarnishValue.expressionV idx) := by
  unfold decodeItem1 at h
  cases h1 : get_list_item d ref 1 with
  | error e => simp [h1] at h
  | ok v =>
    rw [h1] at h
    cases h2 : d.heap[v]? with
    | none => simp [get_data_type, h2] at h
    | some gv =>
      cases gv with
      | expressionV i =>
        simp only [get_data_type, h2, typeOf, get_expression] at h
        obtain rfl : i = idx := Except.ok.inj h
        exact ⟨v, rfl, h2⟩
      | symbolV id => simp [get_data_type, h2, typeOf] at h
      | charListV cs => simp [get_data_type, h2, typeOf] at h
      | listV items => simp [get_data_type, h2, typeOf] at h
      | otherV => simp [get_data_type, h2, typeOf] at h

/-- C7: on well-formed interpreter data (every symbol value on the heap is
registered in the data symbol table, which SimpleRuntimeData maintains),
decoding an annotation's terminal value
(get_name_expression_annotation_parameters, src/main.rs lines 609-715)
succeeds exactly when the value is a List whose item 0 has type Symbol or
CharList and whose item 1 has type Expression; on success the returned pair is
the decoded name string (symbol-table string for a Symbol, the characters for
a CharList) and the stored jump-table index of the Expression; every other
type combination fails, which makes the caller skip the annotation. -/
theorem annotation_params_decode_iff :
    ∀ (d : SimpleData) (ref : Nat), wfData d →
      ((∃ p, get_name_expression_annotation_parameters d ref = Except.ok p) ↔
        (∃ items, d.heap[ref]? = some (GarnishValue.listV items)
          ∧ (∃ i0, items[0]? = some i0
              ∧ ((∃ id, d.heap[i0]? = some (GarnishValue.symbolV id))
                 ∨ (∃ cs, d.heap[i0]? = some (GarnishValue.charListV cs))))
          ∧ (∃ i1, items[1]? = some i1
              ∧ ∃ idx, d.heap[i1]? = some (GarnishValue.expressionV idx))))
      ∧ (∀ name idx,
          get_name_expression_annotation_parameters d ref = Except.ok (name, idx) →
          ∃ items i0 i1, d.heap[ref]? = some (GarnishValue.listV items)
            ∧ items[0]? = some i0 ∧ items[1]? = some i1
            ∧ d.heap[i1]? = some (GarnishValue.expressionV idx)
            ∧ ((∃ id, d.heap[i0]? = some (GarnishValue.symbolV id)
                  ∧ List.lookup id d.symbol_table = some name)
               ∨ d.heap[i0]? = some (GarnishValue.charListV name)))
      ∧ (∀ items i0 id name i1 idx,
          d.heap[ref]? = some (GarnishValue.listV items) →
          items[0]? = some i0 →
          d.heap[i0]? = some (GarnishValue.symbolV id) →
          List.lookup id d.symbol_table = some name →
          items[1]? = some i1 →
          d.heap[i1]? = some (GarnishValue.expressionV idx) →
          get_name_expression_annotation_parameters d ref = Except.ok (name, idx)) := by
  intro d ref hwf
  have hfwd : ∀ name idx,
      get_name_expression_annotation_parameters d ref = Except.ok (name, idx) →
      ∃ items i0 i1, d.heap[ref]? = some (GarnishValue.listV items)
        ∧ items[0]? = some i0 ∧ items[1]? = some i1
        ∧ d.heap[i1]? = some (GarnishValue.expressionV idx)
        ∧ ((∃ id, d.heap[i0]? = some (GarnishValue.symbolV id)
              ∧ List.lookup id d.symbol_table = some name)
           ∨ d.heap[i0]? = some (GarnishValue.charListV name)) := by
    intro name idx h
    unfold get_name_expression_annotation_parameters at h
    cases hr : d.heap[ref]? with
    | none => simp [get_data_type, hr] at h
    | some gv =>
      cases gv with
      | listV items =>
        simp only [get_data_type, hr, typeOf] at h
        cases h0 : decodeItem0 d ref with
        | error e => simp [h0] at h
        | ok nm =>
          simp only [h0] at h
          cases h1 : decodeItem1 d ref with
          | error e => simp [h1] at h
          | ok iv =>
            simp only [h1, Except.ok.injEq, Prod.mk.injEq] at h
            obtain ⟨hnm, hiv⟩ := h
            rw [hnm] at h0
            rw [hiv] at h1
            obtain ⟨v0, hv0, hcase0⟩ := decodeItem0_ok_shape d ref name h0
            obtain ⟨v1, hv1, hexp⟩ := decodeItem1_ok_shape d ref idx h1
            obtain ⟨items0, hr0, hi0⟩ := (get_list_item_ok_iff d ref 0 v0).1 hv0
            obtain ⟨items1, hr1, hi1⟩ := (get_list_item_ok_iff d ref 1 v1).1 hv1
            rw [hr] at hr0 hr1
            have he0 : items0 = items :=
              GarnishValue.listV.inj (Option.some.inj hr0).symm
            have he1 : items1 = items :=
              GarnishValue.listV.inj (Option.some.inj hr1).symm
            rw [he0] at hi0
            rw [he1] at hi1
            exact ⟨items, v0, v1, rfl, hi0, hi1, hexp, hcase0⟩
      | symbolV id => simp [get_data_type, hr, typeOf] at h
      | charListV cs => simp [get_data_type, hr, typeOf] at h
      | expressionV i => simp [get_data_type, hr, typeOf] at h
      | otherV => simp [get_data_type, hr, typeOf] at h
  have hmk : ∀ items i0 i1 idx (name : Str),
      d.heap[ref]? = some (GarnishValue.listV items) →
      items[0]? = some i0 → items[1]? = some i1 →
      decodeItem0 d ref = Except.ok name →
      d.heap[i1]? = some (GarnishValue.expressionV idx) →
      get_name_expression_annotation_parameters d ref = Except.ok (name, idx) := by
    intro items i0 i1 idx name hr hi0 hi1 hd0 hexp
    have hli1 : get_list_item d ref 1 = Except.ok i1 :=
      (get_list_item_ok_iff d ref 1 i1).2 ⟨items, hr, hi1⟩
    have hd1 : decodeItem1 d ref = Except.ok idx :=
      decodeItem1_exp d ref i1 idx hli1 hexp
    simp [get_name_expression_annotation_parameters, get_data_type, hr, typeOf, hd0, hd1]
  refine ⟨⟨?_, ?_⟩, hfwd, ?_⟩
  · rintro ⟨⟨name, idx⟩, h⟩
    obtain ⟨items, i0, i1, hr, hi0, hi1, hexp, hcase0⟩ := hfwd name idx h
    refine ⟨items, hr, ⟨i0, hi0, ?_⟩, ⟨i1, hi1, idx, hexp⟩⟩
    rcases hcase0 with ⟨id, hid, -⟩ | hcs
    · exact Or.inl ⟨id, hid⟩
    · exact Or.inr ⟨name, hcs⟩
  · rintro ⟨items, hr, ⟨i0, hi0, hcase0⟩, ⟨i1, hi1, idx, hexp⟩⟩
    have hli0 : get_list_item d ref 0 = Except.ok i0 :=
      (get_list_item_ok_iff d ref 0 i0).2 ⟨items, hr, hi0⟩
    rcases hcase0 with ⟨id, hid⟩ | ⟨cs, hcs⟩
    · have hmem : GarnishValue.symbolV id ∈ d.heap := List.getElem?_mem hid
      have hok := hwf _ hmem
      simp only [valOk] at hok
      obtain ⟨name, hname⟩ := Option.isSome_iff_exists.mp hok
      exact ⟨(name, idx), hmk items i0 i1 idx name hr hi0 hi1
        (decodeItem0_sym d ref i0 id name hli0 hid hname) hexp⟩
    · exact ⟨(cs, idx), hmk items i0 i1 idx cs hr hi0 hi1
        (decodeItem0_char d ref i0 cs hli0 hcs) hexp⟩
  · intro items i0 id name i1 idx hr hi0 hid hname hi1 hexp
    have hli0 : get_list_item d ref 0 = Except.ok i0 :=
      (get_list_item_ok_iff d ref 0 i0).2 ⟨items, hr, hi0⟩
    exact hmk items i0 i1 idx name hr hi0 hi1
      (decodeItem0_sym d ref i0 id name hli0 hid hname) hexp

/-- C7 witness: a concrete heap holding the list (Symbol 7, Expression 4) with
symbol 7 interned as "POST" decodes to ("POST", 4). -/
theorem annotation_params_decode_witness :
    get_name_expression_annotation_parameters
      ⟨[GarnishValue.listV [1, 2], GarnishValue.symbolV 7, GarnishValue.expressionV 4],
       [(7, "POST".toList)]⟩ 0 = Except.ok ("POST".toList, 4) :=
  (annotation_params_decode_iff
    ⟨[GarnishValue.listV [1, 2], GarnishValue.symbolV 7, GarnishValue.expressionV 4],
     [(7, "POST".toList)]⟩ 0 (by decide)).2.2 [1, 2] 1 7 "POST".toList 2 4
    rfl rfl rfl rfl rfl rfl

lemma processMethodBlocks_all_skipped (route : Str) (ft : FileType) :
    ∀ (blocks : List MethodBlockM) (st : CompState), (∀ b ∈ blocks, b.build = none) →
      processMethodBlocks route ft blocks st = Except.ok st := by
  intro blocks
  induction blocks with
  | nil => intro st h; rfl
  | cons b rest ih =>
    intro st h
    have hb : b.build = none := h b (List.mem_cons_self b rest)
    rw [processMethodBlocks, hb]
    exact ih st (fun x hx => h x (List.mem_cons_of_mem b hx))

lemma processDefBlocks_routes :
    ∀ (blocks : List DefBlockM) (st : CompState),
      (processDefBlocks blocks st).routes = st.routes := by
  intro blocks
  induction blocks with
  | nil => intro st; rfl
  | cons b rest ih =>
    intro st
    cases hb : b.build with
    | none => rw [processDefBlocks, hb]; exact ih st
    | some p => obtain ⟨name, start⟩ := p; rw [processDefBlocks, hb]; exact ih _

/-- C8: the claim states that a missing jump point for a @Method annotation's
recorded jump-table index fails only that file's compile while compilation of
the other files continues.  The code disagrees: handle_method_annotations
returns Err (src/main.rs lines 516-524) and create_runtime propagates it with
`?` (line 391), so the whole startup compilation fails; here a second,
well-formed file is never compiled and the result is the error, not a route
map containing the second file's route. -/
theorem method_missing_jump_point_continues_cex :
    create_runtime "/site".toList
      [⟨"/site/a.garnish".toList, none, none, [⟨some ("POST".toList, 3), none⟩], [],
        RootOutcome.builtOk 0 9⟩,
       ⟨"/site/b.garnish".toList, none, none, [], [], RootOutcome.builtOk 1 11⟩]
      ⟨[], []⟩ = Except.error "Expression value not found in jump table".toList :=
  rfl

/-- C8 (amended): a missing jump point after building a @Method annotation is
propagated out of create_runtime, so the entire startup compilation fails —
the same outcome as the missing-jump-point condition after building a file's
root expression; in neither case does compilation of the remaining files
continue. -/
theorem missing_jump_point_fatal_both :
    (∀ (base : Str) (f : FileM) (rest : List FileM) (st : CompState)
       (route : Str) (ft : FileType) (name : Str) (jidx : Nat)
       (tailB : List MethodBlockM),
       routeKey base f.path = Except.ok (route, ft) →
       f.readErr = none → f.collectErr = none →
       f.methodBlocks = ⟨some (name, jidx), none⟩ :: tailB →
       create_runtime base (f :: rest) st =
         Except.error "Expression value not found in jump table".toList)
    ∧ (∀ (base : Str) (f : FileM) (rest : List FileM) (st : CompState)
         (route : Str) (ft : FileType),
       routeKey base f.path = Except.ok (route, ft) →
       f.readErr = none → f.collectErr = none →
       (∀ b ∈ f.methodBlocks, b.build = none) →
       f.root = RootOutcome.builtNoJump →
       create_runtime base (f :: rest) st =
         Except.error ("No jump point found after building ".toList ++ f.path)) := by
  constructor
  · intro base f rest st route ft name jidx tailB hroute hread hcollect hmb
    simp [create_runtime, processFile, hroute, hread, hcollect, hmb, processMethodBlocks]
  · intro base f rest st route ft hroute hread hcollect hall hroot
    have hmb := processMethodBlocks_all_skipped route ft f.methodBlocks st hall
    simp [create_runtime, processFile, hroute, hread, hcollect, hmb, hroot]

/-- C8 witness: the method clause applied to a concrete file whose single
@Method block decodes to ("GET", 2) with no jump point for index 2. -/
theorem missing_jump_point_fatal_both_witness :
    create_runtime "/site".toList
      [⟨"/site/c.garnish".toList, none, none, [⟨some ("GET".toList, 2), none⟩], [],
        RootOutcome.emptyNodes⟩] ⟨[], []⟩ =
      Except.error "Expression value not found in jump table".toList :=
  missing_jump_point_fatal_both.1 "/site".toList
    ⟨"/site/c.garnish".toList, none, none, [⟨some ("GET".toList, 2), none⟩], [],
      RootOutcome.emptyNodes⟩ [] ⟨[], []⟩ "c".toList FileType.HTML
    "GET".toList 2 [] rfl rfl rfl rfl

/-- C9: for every file whose root-block tokens parse to an empty node list
(src/main.rs lines 412-415), the compiler registers no root route and no
expression-map entry beyond what the file's @Method and @Def annotations
already registered: processing the file yields exactly the state after the
annotation passes, its route map is the post-@Method route map unchanged, and
compilation continues with the next file without error. -/
theorem empty_root_parse_skips_root_only :
    ∀ (base : Str) (f : FileM) (rest : List FileM) (st st1 : CompState)
      (route : Str) (ft : FileType),
      routeKey base f.path = Except.ok (route, ft) →
      f.readErr = none → f.collectErr = none →
      f.root = RootOutcome.emptyNodes →
      processMethodBlocks route ft f.methodBlocks st = Except.ok st1 →
      processFile base f st = Except.ok (processDefBlocks f.defBlocks st1)
      ∧ (processDefBlocks f.defBlocks st1).routes = st1.routes
      ∧ create_runtime base (f :: rest) st =
          create_runtime base rest (processDefBlocks f.defBlocks st1) := by
  intro base f rest st st1 route ft hroute hread hcollect hroot hmb
  have hpf : processFile base f st = Except.ok (processDefBlocks f.defBlocks st1) := by
    simp [processFile, hroute, hread, hcollect, hmb, hroot]
  refine ⟨hpf, processDefBlocks_routes f.defBlocks st1, ?_⟩
  simp [create_runtime, hpf]

/-- C9 witness: a concrete empty-root file with one @Def annotation: the def
registration survives, the route map is untouched, and the fold continues. -/
theorem empty_root_parse_skips_root_only_witness :
    processFile "/site".toList
      ⟨"/site/e.garnish".toList, none, none, [], [⟨some ("h".toList, 2)⟩],
        RootOutcome.emptyNodes⟩ ⟨[], []⟩ =
      Except.ok (processDefBlocks [⟨some ("h".toList, 2)⟩] ⟨[], []⟩)
    ∧ (processDefBlocks [⟨some ("h".toList, 2)⟩] ⟨[], []⟩).routes =
        CompState.routes ⟨[], []⟩
    ∧ create_runtime "/site".toList
        [⟨"/site/e.garnish".toList, none, none, [], [⟨some ("h".toList, 2)⟩],
          RootOutcome.emptyNodes⟩] ⟨[], []⟩ =
        create_runtime "/site".toList [] (processDefBlocks [⟨some ("h".toList, 2)⟩] ⟨[], []⟩) :=
  empty_root_parse_skips_root_only "/site".toList
    ⟨"/site/e.garnish".toList, none, none, [], [⟨some ("h".toList, 2)⟩],
      RootOutcome.emptyNodes⟩ [] ⟨[], []⟩ ⟨[], []⟩ "e".toList FileType.HTML
    rfl rfl rfl rfl rfl

lemma processMethodBlocks_inv (route : Str) (ft : FileType) :
    ∀ (blocks : List MethodBlockM) (st st' : CompState),
      routesInvariant st.routes →
      processMethodBlocks route ft blocks st = Except.ok st' →
      routesInvariant st'.routes := by
  intro blocks
  induction blocks with
  | nil =>
    intro st st' hinv h
    obtain rfl : st = st' := Except.ok.inj h
    exact hinv
  | cons b rest ih =>
    intro st st' hinv h
    cases hb : b.build with
    | none =>
      rw [processMethodBlocks, hb] at h
      exact ih st st' hinv h
    | some p =>
      obtain ⟨name, jidx⟩ := p
      cases hj : b.jumpPoint with
      | none => rw [processMethodBlocks, hb, hj] at h; exact Except.noConfusion h
      | some start =>
        rw [processMethodBlocks, hb, hj] at h
        refine ih _ st' ?_ h
        intro p hp
        rcases List.mem_cons.mp hp with heq | hp2
        · rw [heq]
        · exact hinv p hp2

lemma processFile_inv (base : Str) (f : FileM) (st st' : CompState)
    (hinv : routesInvariant st.routes)
    (h : processFile base f st = Except.ok st') : routesInvariant st'.routes := by
  unfold processFile at h
  cases hroute : routeKey base f.path with
  | error e => simp only [hroute] at h; exact Except.noConfusion h
  | ok p =>
    obtain ⟨route, ft⟩ := p
    simp only [hroute] at h
    cases hread : f.readErr with
    | some e => simp only [hread] at h; exact Except.noConfusion h
    | none =>
      simp only [hread] at h
      cases hcollect : f.collectErr with
      | some e => simp only [hcollect] at h; exact Except.noConfusion h
      | none =>
        simp only [hcollect] at h
        cases hmb : processMethodBlocks route ft f.methodBlocks st with
        | error e => simp only [hmb] at h; exact Except.noConfusion h
        | ok st1 =>
          simp only [hmb] at h
          have hinv1 : routesInvariant st1.routes :=
            processMethodBlocks_inv route ft f.methodBlocks st st1 hinv hmb
          have hinvd : routesInvariant (processDefBlocks f.defBlocks st1).routes := by
            rw [processDefBlocks_routes]
            exact hinv1
          cases hroot : f.root with
          | parseFail e => simp only [hroot] at h; exact Except.noConfusion h
          | emptyNodes =>
            simp only [hroot, Except.ok.injEq] at h
            rw [← h]
            exact hinvd
          | buildFail e => simp only [hroot] at h; exact Except.noConfusion h
          | builtNoJump => simp only [hroot] at h; exact Except.noConfusion h
          | builtOk index start =>
            simp only [hroot, Except.ok.injEq] at h
            rw [← h]
            intro p hp
            rcases List.mem_cons.mp hp with heq | hp2
            · rw [heq]
            · exact hinvd p hp2

/-- C10: for every entry (key, info) in the route map produced by compilation —
whether inserted for a file's root (src/main.rs lines 440-443) or for a
@Method annotation (lines 537-538) — info.route equals key. -/
theorem route_map_key_matches_info_route :
    ∀ (base : Str) (files : List FileM) (st st2 : CompState) (k : Str) (i : RouteInfo),
      routesInvariant st.routes →
      create_runtime base files st = Except.ok st2 →
      (k, i) ∈ st2.routes → i.route = k := by
  intro base files
  induction files with
  | nil =>
    intro st st2 k i hinv h hmem
    obtain rfl : st = st2 := Except.ok.inj h
    exact hinv (k, i) hmem
  | cons f rest ih =>
    intro st st2 k i hinv h hmem
    cases hpf : processFile base f st with
    | error e => rw [create_runtime, hpf] at h; exact Except.noConfusion h
    | ok stm =>
      rw [create_runtime, hpf] at h
      exact ih stm st2 k i (processFile_inv base f st stm hinv hpf) h hmem

/-- C10 witness: the invariant read off a concrete one-file compilation whose
route map is [("a", RouteInfo("a", Html, 7))]. -/
theorem route_map_key_matches_info_route_witness :
    RouteInfo.route ⟨"a".toList, FileType.HTML, 7⟩ = "a".toList :=
  route_map_key_matches_info_route "/site".toList
    [⟨"/site/a.garnish".toList, none, none, [], [], RootOutcome.builtOk 0 7⟩]
    ⟨[], []⟩ ⟨[("a".toList, ⟨"a".toList, FileType.HTML, 7⟩)], [("a".toList, 0)]⟩
    "a".toList ⟨"a".toList, FileType.HTML, 7⟩ (by decide) rfl (by decide)

end GarnishWeb
